import Mathlib

/-!
TunnelHub — verification of the authentication / admission-control core.

Shallow embedding of the TunnelHub server's admission controller
(`dos_protection` middleware), session manager (`verify_session`, `logout`),
key lifecycle manager (`ensure_keys_exist`, `generate_rsa_key_pair`) and
credential channel (`decrypt_password` error path, RSA round trip), translated
from `src/main.py` and `src/security.py`.

Machine floats of the Python code are modelled by exact rationals; Python's
`int()` truncation is modelled by `pyInt`.
-/

namespace TunnelHub

/-! ## Admission controller: the `dos_protection` middleware (src/main.py 97-149)

One bucket per client; we model the processing of a single request against the
bucket that the store holds for that client (`none` = client not seen yet).
Python floats are modelled as exact rationals. -/

/-- A rate-limit bucket: `{"tokens": float, "last": float}` in `dos_protection._store`. -/
structure RateEntry where
  tokens : ℚ
  last : ℚ
deriving DecidableEq

/-- Python's `int()` on a real number truncates toward zero. -/
def pyInt (q : ℚ) : ℤ := if 0 ≤ q then ⌊q⌋ else ⌈q⌉

/-- Digit run to number: the value of a list of decimal digit characters. -/
def digitsToNat (ds : List Char) : ℕ :=
  ds.foldl (fun a c => 10 * a + (c.toNat - 48)) 0

/-- Python's `int(str)`: optional surrounding whitespace, optional sign, at
least one decimal digit (digit-grouping underscores are not modelled).
Returns `none` where Python raises `ValueError`. -/
def pyParseInt (s : String) : Option ℤ :=
  let l := ((s.data.dropWhile Char.isWhitespace).reverse.dropWhile Char.isWhitespace).reverse
  let signAndDigits : ℤ × List Char :=
    match l with
    | '+' :: rest => (1, rest)
    | '-' :: rest => (-1, rest)
    | rest => (1, rest)
  if signAndDigits.2 ≠ [] ∧ signAndDigits.2.all Char.isDigit then
    some (signAndDigits.1 * digitsToNat signAndDigits.2)
  else none

/-- The fixed allow-list of `dos_protection` (src/main.py line 101). -/
def publicPaths : List String :=
  ["/", "/api/public-key", "/favicon.ico", "/docs", "/openapi.json"]

/-- Configuration read from the environment: `RATE_LIMIT_RPM` and `MAX_REQUEST_SIZE`. -/
structure DosConfig where
  rateLimitRpm : ℚ
  maxRequestSize : ℤ

/-- The part of an inbound request that `dos_protection` inspects. -/
structure DosRequest where
  path : String
  contentLength : Option String

/-- Outcome of the middleware for one request. -/
inductive DosOutcome where
  | exemptPass
  | rejected429 (retryAfter : ℤ)
  | rejected413
  | admitted
deriving DecidableEq

/-- Refill step (src/main.py 121-124): `elapsed = now - last`; if positive,
`tokens = min(RATE_LIMIT_RPM, tokens + elapsed * refill_per_sec)` and `last = now`. -/
def refillEntry (cfg : DosConfig) (now : ℚ) (e : RateEntry) : RateEntry :=
  let elapsed := now - e.last
  if 0 < elapsed then
    { tokens := min cfg.rateLimitRpm (e.tokens + elapsed * (cfg.rateLimitRpm / 60)),
      last := now }
  else e

/-- The bucket after lookup-or-create (src/main.py 115-118: a missing client gets
`{"tokens": float(RATE_LIMIT_RPM), "last": now}`) and the refill step. -/
def dosRefilled (cfg : DosConfig) (now : ℚ) (store : Option RateEntry) : RateEntry :=
  refillEntry cfg now (store.getD { tokens := cfg.rateLimitRpm, last := now })

/-- The computation `retry_after = int(max(1, (1.0 - entry["tokens"]) / refill_per_sec))` (src/main.py 127). -/
def retryAfterCalc (cfg : DosConfig) (tokens : ℚ) : ℤ :=
  pyInt (max 1 ((1 - tokens) / (cfg.rateLimitRpm / 60)))

/-- The `dos_protection` middleware (src/main.py 97-149) acting on one client's
bucket: exempt paths bypass everything; otherwise refill, reject 429 when fewer
than 1 token is available, else consume one token and then reject 413 when the
`content-length` header is non-empty, parses as an integer and exceeds
`MAX_REQUEST_SIZE` (a non-parsing header is ignored: `except ValueError: pass`).
Python's `int(str)` success/failure is modelled by `pyParseInt`. -/
def dos_protection (cfg : DosConfig) (now : ℚ) (store : Option RateEntry)
    (req : DosRequest) : Option RateEntry × DosOutcome :=
  if req.path ∈ publicPaths then (store, .exemptPass)
  else
    let entry := dosRefilled cfg now store
    if entry.tokens < 1 then
      (some entry, .rejected429 (retryAfterCalc cfg entry.tokens))
    else
      let entry' : RateEntry := { entry with tokens := entry.tokens - 1 }
      match req.contentLength with
      | some s =>
        if s = "" then (some entry', .admitted)
        else
          match pyParseInt s with
          | some v =>
            if cfg.maxRequestSize < v then (some entry', .rejected413)
            else (some entry', .admitted)
          | none => (some entry', .admitted)
      | none => (some entry', .admitted)

/-! ## Session manager (src/main.py 152-172, 241-252)

The in-memory `sessions` dict is modelled as a function from token strings to
optional session records; Python's `del` is keyed erasure. -/

/-- The record `models.SessionData` (src/models.py 106-111). -/
structure SessionData where
  session_token : String
  user_id : Option String
  is_admin : Bool
  created_at : String
deriving DecidableEq

/-- The `sessions` store (src/main.py line 59). -/
abbrev SessionMap : Type := String → Option SessionData

/-- Python's `str.startswith`, over character lists. -/
def pyStartsWith (s pre : String) : Bool := s.data.take pre.data.length == pre.data

/-- Python's `s[7:]` character slice. -/
def pyDrop (s : String) (n : ℕ) : String := (s.data.drop n).asString

/-- Function `verify_session` (src/main.py 152-159): requires an `Authorization` header
beginning with `"Bearer "`, strips the prefix and looks the token up;
otherwise yields no session. -/
def verify_session (sessions : SessionMap) (authHeader : Option String) :
    Option SessionData :=
  match authHeader with
  | none => none
  | some h =>
    if h = "" then none
    else if pyStartsWith h "Bearer " then sessions (pyDrop h 7)
    else none

/-- The bearer token a header carries, if any (the key `verify_session` looks up). -/
def bearerToken (authHeader : Option String) : Option String :=
  match authHeader with
  | none => none
  | some h =>
    if h = "" then none
    else if pyStartsWith h "Bearer " then some (pyDrop h 7)
    else none

/-- Result of the `logout` endpoint: the store afterwards and the JSON reply. -/
structure LogoutResult where
  sessions : SessionMap
  success : Bool
  message : String

/-- Endpoint `logout` (src/main.py 241-252): deletes `sessions[session.session_token]`
when `verify_session` finds a session, else leaves the store alone; replies
`{"success": True, "message": "Logged out successfully"}` in both cases. -/
def logout (sessions : SessionMap) (authHeader : Option String) : LogoutResult :=
  match verify_session sessions authHeader with
  | some sess =>
    { sessions := fun t => if t = sess.session_token then none else sessions t,
      success := true, message := "Logged out successfully" }
  | none =>
    { sessions := sessions, success := true, message := "Logged out successfully" }

/-! ## Key lifecycle manager (src/security.py 28-87, 203-238)

The module-level key state and the environment are explicit; the behaviour of
`serialization.load_pem_private_key` on the supplied material (parse and
succeed, or raise) is a parameter, as is the fresh pair
`rsa.generate_private_key` would produce and whether the key-file writes
succeed. -/

/-- The module state `_in_memory_private_key` / `_in_memory_public_key_pem`
(src/security.py 24-25); the private-key object is modelled by the text it was
parsed from. -/
structure KeyMem where
  privKey : Option String
  pubPem : Option String
deriving DecidableEq

/-- Environment and library behaviour seen by the key lifecycle functions:
`RSA_PRIVATE_KEY` / `RSA_PUBLIC_KEY`, the `IS_SERVERLESS` flag
(src/security.py 16), `load_pem_private_key` as a partial parse function, the
material a fresh generation would produce, and whether writing the key files
succeeds. -/
structure KeyConfig where
  envPriv : Option String
  envPub : Option String
  serverless : Bool
  parsePem : String → Option String
  freshPriv : String
  freshPub : String
  fileWriteOk : Bool

/-- Python truthiness of an optional string: `None` and `""` are falsy. -/
def pyTruthy : Option String → Bool
  | none => false
  | some s => !(s == "")

/-- Function `generate_rsa_key_pair` (src/security.py 28-87): in serverless mode the
fresh pair is stored in memory; otherwise it is written to the key files and
memory is untouched, falling back to in-memory storage when the write fails. -/
def generate_rsa_key_pair (cfg : KeyConfig) (st : KeyMem) : KeyMem :=
  if cfg.serverless then { privKey := some cfg.freshPriv, pubPem := some cfg.freshPub }
  else if cfg.fileWriteOk then st
  else { privKey := some cfg.freshPriv, pubPem := some cfg.freshPub }

/-- Function `ensure_keys_exist` (src/security.py 203-238). Returns the new in-memory
state and whether `generate_rsa_key_pair` was invoked. Resolution: (a) both
keys already in memory → no-op; (b) both env vars truthy → try to parse and
adopt them (a parse failure is caught and logged); then (c) if
`IS_SERVERLESS` or no private key is in memory, generate a fresh pair. -/
def ensure_keys_exist (cfg : KeyConfig) (st : KeyMem) : KeyMem × Bool :=
  if st.privKey.isSome && pyTruthy st.pubPem then (st, false)
  else
    let st1 :=
      if pyTruthy cfg.envPriv && pyTruthy cfg.envPub then
        match cfg.envPriv with
        | some pem =>
          match cfg.parsePem pem with
          | some k => { privKey := some k, pubPem := cfg.envPub }
          | none => st
        | none => st
      else st
    if cfg.serverless || st1.privKey.isNone then (generate_rsa_key_pair cfg st1, true)
    else (st1, false)

/-! ## Credential channel error surface (src/security.py 158-186, src/main.py 200-238)

What the library calls inside `decrypt_password`'s `try` block do on a given
input is abstracted as an outcome: success with a plaintext, or a failure at
one of the steps (base64 decode, RSA/padding, UTF-8 decode, key loading)
carrying the library's exception text `str(e)`. -/

/-- Which call inside the `try` block of `decrypt_password` raised. -/
inductive DecryptStep where
  | keyLoad
  | base64Decode
  | rsaPadding
  | utf8Decode
deriving DecidableEq

/-- Behaviour of the underlying library calls on one input. -/
inductive DecryptOutcome where
  | ok (password : String)
  | fail (step : DecryptStep) (exnText : String)
deriving DecidableEq

/-- Function `decrypt_password` (src/security.py 158-186): any exception `e` is caught
and re-raised as `ValueError("Failed to decrypt password: " + str(e))`. -/
def decrypt_password : DecryptOutcome → Except String String
  | .ok p => .ok p
  | .fail _ t => .error ("Failed to decrypt password: " ++ t)

/-- The HTTP error `verify_login` surfaces when decryption raises
(src/main.py 234-238): status 400 with
`detail = "Authentication failed: " + str(e)`; `none` when decryption
succeeds. -/
def verify_login_error (o : DecryptOutcome) : Option (ℕ × String) :=
  match decrypt_password o with
  | .error e => some (400, "Authentication failed: " ++ e)
  | .ok _ => none

/-! ## Credential channel round trip (src/security.py 28-87, 158-186)

Byte strings are lists of naturals below 256. The library calls inside
`decrypt_password` — `base64.b64decode`, RSA decryption with PKCS#1 v1.5
padding, `bytes.decode("utf-8")` — are given their mathematical semantics
below; the client-side encryption they invert is not in `src/` (it happens in
the browser) and is modelled from the spec. -/

/-- Big-endian bytes-to-integer (`OS2IP`). -/
def bytesToNat (l : List ℕ) : ℕ := l.foldl (fun a b => 256 * a + b) 0

/-- Big-endian integer-to-bytes of fixed width (`I2OSP`). -/
def natToBytes : ℕ → ℕ → List ℕ
  | 0, _ => []
  | k + 1, m => natToBytes k (m / 256) ++ [m % 256]

/-- Textbook RSA encryption of an integer message with the public key. -/
def rsaEncryptInt (n e m : ℕ) : ℕ := m ^ e % n

/-- Textbook RSA decryption of an integer ciphertext with the private key. -/
def rsaDecryptInt (n d c : ℕ) : ℕ := c ^ d % n

/-- PKCS#1 v1.5 type-2 padding: `00 02 PS 00 M` with `PS` nonzero bytes. -/
def pkcs1v15Pad (ps msg : List ℕ) : List ℕ := 0 :: 2 :: (ps ++ 0 :: msg)

/-- PKCS#1 v1.5 type-2 unpadding as the decryption side enforces it: leading
`00 02`, a nonzero padding string of at least 8 bytes, a zero separator, then
the message. -/
def pkcs1v15Unpad (em : List ℕ) : Option (List ℕ) :=
  match em with
  | 0 :: 2 :: rest =>
    let ps := rest.takeWhile (fun b => b != 0)
    match rest.dropWhile (fun b => b != 0) with
    | 0 :: msg => if 8 ≤ ps.length then some msg else none
    | _ => none
  | _ => none

/-- The base64 alphabet. -/
def b64Alphabet : List Char :=
  "ABCDEFGHIJKLMNOPQRSTUVWXYZabcdefghijklmnopqrstuvwxyz0123456789+/".toList

/-- Character for a sextet value. -/
def b64Char (i : ℕ) : Char := b64Alphabet.getD i '='

/-- Sextet value of an alphabet character. -/
def b64Index (c : Char) : Option ℕ := b64Alphabet.findIdx? (fun x => x == c)

/-- Base64 encoding of a byte string, with `=` padding. -/
def b64Encode : List ℕ → List Char
  | [] => []
  | [a] => [b64Char (a / 4), b64Char (a % 4 * 16), '=', '=']
  | [a, b] => [b64Char (a / 4), b64Char (a % 4 * 16 + b / 16), b64Char (b % 16 * 4), '=']
  | a :: b :: c :: rest =>
    b64Char (a / 4) :: b64Char (a % 4 * 16 + b / 16) ::
      b64Char (b % 16 * 4 + c / 64) :: b64Char (c % 64) :: b64Encode rest

/-- Base64 decoding (`base64.b64decode` on well-formed input): groups of four
characters, `=` padding allowed only at the end. -/
def b64Decode : List Char → Option (List ℕ)
  | [] => some []
  | c1 :: c2 :: c3 :: c4 :: rest =>
    match b64Index c1, b64Index c2 with
    | some s1, some s2 =>
      if c3 = '=' then
        if c4 = '=' ∧ rest = [] then some [s1 * 4 + s2 / 16] else none
      else
        match b64Index c3 with
        | some s3 =>
          if c4 = '=' then
            if rest = [] then some [s1 * 4 + s2 / 16, s2 % 16 * 16 + s3 / 4] else none
          else
            match b64Index c4, b64Decode rest with
            | some s4, some tl =>
              some ((s1 * 4 + s2 / 16) :: (s2 % 16 * 16 + s3 / 4) :: (s3 % 4 * 64 + s4) :: tl)
            | _, _ => none
        | none => none
    | _, _ => none
  | _ => none

/-- UTF-8 encoding of one Unicode scalar value. -/
def utf8EncodeChar (c : ℕ) : List ℕ :=
  if c < 0x80 then [c]
  else if c < 0x800 then [0xC0 + c / 64, 0x80 + c % 64]
  else if c < 0x10000 then [0xE0 + c / 4096, 0x80 + c / 64 % 64, 0x80 + c % 64]
  else [0xF0 + c / 262144, 0x80 + c / 4096 % 64, 0x80 + c / 64 % 64, 0x80 + c % 64]

/-- UTF-8 encoding of a text (`str.encode("utf-8")`). -/
def utf8Encode : List Char → List ℕ
  | [] => []
  | c :: cs => utf8EncodeChar c.toNat ++ utf8Encode cs

/-- A UTF-8 continuation byte. -/
abbrev utf8IsCont (b : ℕ) : Prop := 0x80 ≤ b ∧ b < 0xC0

/-- One step of strict UTF-8 decoding: the scalar value encoded at the head of
the byte string and the remaining bytes; rejects stray or missing continuation
bytes, overlong forms, surrogates, and values above `U+10FFFF`. -/
def utf8DecodeStep : List ℕ → Option (ℕ × List ℕ)
  | [] => none
  | b :: rest =>
    if b < 0x80 then some (b, rest)
    else if b < 0xC2 then none
    else if b < 0xE0 then
      if 1 ≤ rest.length ∧ utf8IsCont (rest.getD 0 0) then
        some ((b - 0xC0) * 64 + (rest.getD 0 0 - 0x80), rest.drop 1)
      else none
    else if b < 0xF0 then
      if 2 ≤ rest.length ∧ utf8IsCont (rest.getD 0 0) ∧ utf8IsCont (rest.getD 1 0) then
        if 0x800 ≤ (b - 0xE0) * 4096 + (rest.getD 0 0 - 0x80) * 64 + (rest.getD 1 0 - 0x80) ∧
            ¬(0xD800 ≤ (b - 0xE0) * 4096 + (rest.getD 0 0 - 0x80) * 64 + (rest.getD 1 0 - 0x80) ∧
              (b - 0xE0) * 4096 + (rest.getD 0 0 - 0x80) * 64 + (rest.getD 1 0 - 0x80) ≤ 0xDFFF) then
          some ((b - 0xE0) * 4096 + (rest.getD 0 0 - 0x80) * 64 + (rest.getD 1 0 - 0x80),
            rest.drop 2)
        else none
      else none
    else if b < 0xF5 then
      if 3 ≤ rest.length ∧ utf8IsCont (rest.getD 0 0) ∧ utf8IsCont (rest.getD 1 0) ∧
          utf8IsCont (rest.getD 2 0) then
        if 0x10000 ≤ (b - 0xF0) * 262144 + (rest.getD 0 0 - 0x80) * 4096 +
              (rest.getD 1 0 - 0x80) * 64 + (rest.getD 2 0 - 0x80) ∧
            (b - 0xF0) * 262144 + (rest.getD 0 0 - 0x80) * 4096 +
              (rest.getD 1 0 - 0x80) * 64 + (rest.getD 2 0 - 0x80) ≤ 0x10FFFF then
          some ((b - 0xF0) * 262144 + (rest.getD 0 0 - 0x80) * 4096 +
              (rest.getD 1 0 - 0x80) * 64 + (rest.getD 2 0 - 0x80),
            rest.drop 3)
        else none
      else none
    else none

/-- Decode loop; each step consumes at least one byte, so fuel equal to the
byte count always suffices. -/
def utf8DecodeLoop : ℕ → List ℕ → Option (List Char)
  | _, [] => some []
  | 0, _ :: _ => none
  | fuel + 1, b :: rest =>
    match utf8DecodeStep (b :: rest) with
    | some cpRest => (utf8DecodeLoop fuel cpRest.2).map (fun cs => Char.ofNat cpRest.1 :: cs)
    | none => none

/-- Strict UTF-8 decoding (`bytes.decode("utf-8")`). -/
def utf8Decode (l : List ℕ) : Option (List Char) := utf8DecodeLoop l.length l

/-- Modelled from the spec: the client-side `encrypt_with_public_key` (the
browser code is not under `src/`): UTF-8 encode the password, apply PKCS#1
v1.5 type-2 padding with a random nonzero padding string `ps` for a `k`-byte
modulus, RSA-encrypt with the public key `(n, e)`, and base64-encode the
`k`-byte ciphertext. -/
def encrypt_with_public_key (n e k : ℕ) (ps : List ℕ) (password : List Char) : List Char :=
  b64Encode (natToBytes k (rsaEncryptInt n e (bytesToNat (pkcs1v15Pad ps (utf8Encode password)))))

/-- Function `decrypt_password` (src/security.py 158-186) with the library calls given
their semantics: base64-decode; the ciphertext must be exactly `k` bytes and
below the modulus; RSA-decrypt with the private key `(n, d)`; PKCS#1 v1.5
unpad; UTF-8 decode. Any failing step yields `none` (the `ValueError` path). -/
def decrypt_password_bytes (n d k : ℕ) (ciphertext : List Char) : Option (List Char) :=
  match b64Decode ciphertext with
  | none => none
  | some cbytes =>
    if cbytes.length = k then
      if bytesToNat cbytes < n then
        match pkcs1v15Unpad (natToBytes k (rsaDecryptInt n d (bytesToNat cbytes))) with
        | none => none
        | some msg => utf8Decode msg
      else none
    else none

/-- Fast modular exponentiation, fuel-driven halving of the exponent. -/
def powModAux (n b : ℕ) : ℕ → ℕ → ℕ
  | _, 0 => 1 % n
  | 0, _ => 1 % n
  | fuel + 1, e + 1 =>
    let h := powModAux n b fuel ((e + 1) / 2)
    if (e + 1) % 2 = 0 then h * h % n else h * h % n * b % n

/-- Modular power `b ^ e % n` computed by binary exponentiation. -/
def powMod (n b e : ℕ) : ℕ := powModAux n (b % n) e e

/-! ## Theorems about the admission controller -/

theorem pyInt_max_one (x : ℚ) : pyInt (max 1 x) = max 1 ⌊x⌋ := by
  have h0 : (0 : ℚ) ≤ max 1 x := le_trans zero_le_one (le_max_left 1 x)
  rw [pyInt, if_pos h0]
  rcases le_total 1 x with h | h
  · rw [max_eq_right h, max_eq_right (Int.le_floor.mpr (by exact_mod_cast h))]
  · have hx : ⌊x⌋ ≤ 1 := by
      calc ⌊x⌋ ≤ ⌊(1 : ℚ)⌋ := Int.floor_le_floor h
      _ = 1 := Int.floor_one
    rw [max_eq_left h, Int.floor_one, max_eq_left hx]

theorem refillEntry_bounds (cfg : DosConfig) (now : ℚ) (e : RateEntry)
    (hC : 0 ≤ cfg.rateLimitRpm) (h0 : 0 ≤ e.tokens) (h1 : e.tokens ≤ cfg.rateLimitRpm) :
    0 ≤ (refillEntry cfg now e).tokens ∧ (refillEntry cfg now e).tokens ≤ cfg.rateLimitRpm := by
  unfold refillEntry
  dsimp only
  split_ifs with h
  · refine ⟨le_min hC ?_, min_le_left _ _⟩
    exact add_nonneg h0 (mul_nonneg (le_of_lt h) (div_nonneg hC (by norm_num)))
  · exact ⟨h0, h1⟩

theorem dosRefilled_bounds (cfg : DosConfig) (now : ℚ) (store : Option RateEntry)
    (hC : 0 ≤ cfg.rateLimitRpm)
    (hstore : ∀ e, store = some e → 0 ≤ e.tokens ∧ e.tokens ≤ cfg.rateLimitRpm) :
    0 ≤ (dosRefilled cfg now store).tokens ∧
      (dosRefilled cfg now store).tokens ≤ cfg.rateLimitRpm := by
  cases store with
  | none => exact refillEntry_bounds cfg now _ hC hC le_rfl
  | some e => exact refillEntry_bounds cfg now e hC (hstore e rfl).1 (hstore e rfl).2

/-- C5: every bucket the middleware stores back satisfies
`0 ≤ tokens ≤ RATE_LIMIT_RPM`: the refill step caps at capacity and a token is
consumed only when at least one is available. -/
theorem claim5_bucket_invariant (cfg : DosConfig) (now : ℚ) (store : Option RateEntry)
    (req : DosRequest) (hC : 0 ≤ cfg.rateLimitRpm)
    (hstore : ∀ e, store = some e → 0 ≤ e.tokens ∧ e.tokens ≤ cfg.rateLimitRpm) :
    ∀ e', (dos_protection cfg now store req).1 = some e' →
      0 ≤ e'.tokens ∧ e'.tokens ≤ cfg.rateLimitRpm := by
  intro e' he'
  have hb := dosRefilled_bounds cfg now store hC hstore
  obtain ⟨path, cl⟩ := req
  by_cases hp : path ∈ publicPaths
  · rw [dos_protection, if_pos hp] at he'
    exact hstore e' he'
  · rw [dos_protection, if_neg hp] at he'
    dsimp only at he'
    by_cases ht : (dosRefilled cfg now store).tokens < 1
    · rw [if_pos ht] at he'
      obtain rfl : dosRefilled cfg now store = e' := Option.some.inj he'
      exact hb
    · rw [if_neg ht] at he'
      have hcons : 0 ≤ (dosRefilled cfg now store).tokens - 1 ∧
          (dosRefilled cfg now store).tokens - 1 ≤ cfg.rateLimitRpm := by
        constructor
        · linarith [not_lt.mp ht]
        · linarith [hb.2]
      cases cl with
      | none =>
        obtain rfl := Option.some.inj he'
        exact hcons
      | some s =>
        dsimp only at he'
        by_cases hs : s = ""
        · rw [if_pos hs] at he'
          obtain rfl := Option.some.inj he'
          exact hcons
        · rw [if_neg hs] at he'
          cases hps : pyParseInt s with
          | none =>
            rw [hps] at he'
            obtain rfl := Option.some.inj he'
            exact hcons
          | some v =>
            rw [hps] at he'
            dsimp only at he'
            by_cases hv : cfg.maxRequestSize < v
            · rw [if_pos hv] at he'
              obtain rfl := Option.some.inj he'
              exact hcons
            · rw [if_neg hv] at he'
              obtain rfl := Option.some.inj he'
              exact hcons

/-- C5 witness: a concrete request against a half-full bucket (60 of 120
tokens, refilled by 2 and then one consumed, leaving 61) keeps the invariant. -/
theorem claim5_bucket_invariant_witness :
    0 ≤ (RateEntry.mk 61 1).tokens ∧ (RateEntry.mk 61 1).tokens ≤ (120 : ℚ) :=
  claim5_bucket_invariant ⟨120, 5242880⟩ 1 (some ⟨60, 0⟩) ⟨"/api/verify", none⟩
    (by norm_num)
    (by intro e he; obtain rfl := Option.some.inj he; constructor <;> norm_num)
    ⟨61, 1⟩
    (by
      rw [dos_protection, if_neg (by decide)]
      have hr : dosRefilled ⟨120, 5242880⟩ 1 (some ⟨60, 0⟩) = ⟨62, 1⟩ := by
        norm_num [dosRefilled, refillEntry, Option.getD, min_def]
      rw [hr]
      norm_num)

/-- C1 counterexample: with `RATE_LIMIT_RPM = 24` (refill rate 0.4 tokens/s) and
an empty bucket, the middleware returns Retry-After 2, not
`max 1 ⌈(1 - 0) / 0.4⌉ = 3`: the code truncates instead of taking the ceiling. -/
theorem claim1_ceil_counterexample :
    (dos_protection ⟨24, 5242880⟩ 0 (some ⟨0, 0⟩) ⟨"/api/verify", none⟩).2 =
        DosOutcome.rejected429 2 ∧
      (2 : ℤ) ≠ max 1 ⌈((1 : ℚ) - 0) / (24 / 60)⌉ := by
  constructor
  · have hp : ("/api/verify" : String) ∉ publicPaths := by decide
    rw [dos_protection, if_neg hp]
    have hr : dosRefilled ⟨24, 5242880⟩ 0 (some ⟨0, 0⟩) = ⟨0, 0⟩ := by
      norm_num [dosRefilled, refillEntry, Option.getD]
    rw [hr]
    norm_num [retryAfterCalc, pyInt]
  · have : (⌈((1 : ℚ) - 0) / (24 / 60)⌉ : ℤ) = 3 := by
      rw [show ((1 : ℚ) - 0) / (24 / 60) = 5 / 2 by norm_num]
      norm_num [Int.ceil_eq_iff]
    rw [this]
    norm_num

/-- C1 amended: on rejection the Retry-After value equals
`max 1 ⌊(1 - available_tokens) / refill_rate⌋` — Python's `int()` truncation,
not the ceiling, applied after clamping at a minimum of 1 second. -/
theorem claim1_retry_after_trunc (cfg : DosConfig) (now : ℚ) (store : Option RateEntry)
    (req : DosRequest) (hp : req.path ∉ publicPaths) (hR : 0 < cfg.rateLimitRpm)
    (hrej : (dosRefilled cfg now store).tokens < 1) :
    (dos_protection cfg now store req).2 =
      DosOutcome.rejected429
        (max 1 ⌊(1 - (dosRefilled cfg now store).tokens) / (cfg.rateLimitRpm / 60)⌋) := by
  rw [dos_protection, if_neg hp]
  dsimp only
  rw [if_pos hrej]
  rw [retryAfterCalc, pyInt_max_one]

/-- C1 witness: a concrete rejection with the default 120 RPM configuration. -/
theorem claim1_retry_after_trunc_witness :
    (dos_protection ⟨120, 5242880⟩ 0 (some ⟨0, 0⟩) ⟨"/api/verify", none⟩).2 =
      DosOutcome.rejected429
        (max 1 ⌊((1 : ℚ) - (dosRefilled ⟨120, 5242880⟩ 0 (some ⟨0, 0⟩)).tokens) / (120 / 60)⌋) :=
  claim1_retry_after_trunc ⟨120, 5242880⟩ 0 (some ⟨0, 0⟩) ⟨"/api/verify", none⟩
    (by decide) (by norm_num)
    (by norm_num [dosRefilled, refillEntry, Option.getD])

/-- C2 counterexample: a request to the health endpoint `/api/health` with an
empty bucket is rejected by the token bucket (HTTP 429); it does not bypass
rate limiting. -/
theorem claim2_health_not_exempt :
    (dos_protection ⟨120, 5242880⟩ 0 (some ⟨0, 0⟩) ⟨"/api/health", none⟩).2 =
        DosOutcome.rejected429 1 ∧
      (dos_protection ⟨120, 5242880⟩ 0 (some ⟨0, 0⟩) ⟨"/api/health", none⟩).2 ≠
        DosOutcome.exemptPass := by
  have hp : ("/api/health" : String) ∉ publicPaths := by decide
  have h1 : (dos_protection ⟨120, 5242880⟩ 0 (some ⟨0, 0⟩) ⟨"/api/health", none⟩).2 =
      DosOutcome.rejected429 1 := by
    rw [dos_protection, if_neg hp]
    have hr : dosRefilled ⟨120, 5242880⟩ 0 (some ⟨0, 0⟩) = ⟨0, 0⟩ := by
      norm_num [dosRefilled, refillEntry, Option.getD]
    rw [hr]
    norm_num [retryAfterCalc, pyInt]
  exact ⟨h1, by rw [h1]; intro h; exact DosOutcome.noConfusion h⟩

/-- C2 amended: the middleware bypasses the token bucket exactly for the fixed
allow-list `"/", "/api/public-key", "/favicon.ico", "/docs", "/openapi.json"`
(dashboard root, key retrieval, favicon, documentation); `/api/health` is not
on it. An exempted request also leaves the store untouched. -/
theorem claim2_exempt_allowlist (cfg : DosConfig) (now : ℚ) (store : Option RateEntry)
    (req : DosRequest) :
    ((dos_protection cfg now store req).2 = DosOutcome.exemptPass ↔ req.path ∈ publicPaths)
      ∧ (req.path ∈ publicPaths → (dos_protection cfg now store req).1 = store) := by
  obtain ⟨path, cl⟩ := req
  by_cases hp : path ∈ publicPaths
  · rw [dos_protection, if_pos hp]
    exact ⟨by simp [hp], fun _ => rfl⟩
  · rw [dos_protection, if_neg hp]
    dsimp only
    refine ⟨⟨fun h => absurd h ?_, fun h => absurd h hp⟩, fun h => absurd h hp⟩
    by_cases ht : (dosRefilled cfg now store).tokens < 1
    · rw [if_pos ht]
      exact fun h => DosOutcome.noConfusion h
    · rw [if_neg ht]
      cases cl with
      | none => exact fun h => DosOutcome.noConfusion h
      | some s =>
        dsimp only
        by_cases hs : s = ""
        · rw [if_pos hs]
          exact fun h => DosOutcome.noConfusion h
        · rw [if_neg hs]
          cases hps : pyParseInt s with
          | none => exact fun h => DosOutcome.noConfusion h
          | some v =>
            dsimp only
            by_cases hv : cfg.maxRequestSize < v
            · rw [if_pos hv]
              exact fun h => DosOutcome.noConfusion h
            · rw [if_neg hv]
              exact fun h => DosOutcome.noConfusion h

/-- C2 witness: the key-retrieval route is exempt and leaves the store alone. -/
theorem claim2_exempt_allowlist_witness :
    (dos_protection ⟨120, 5242880⟩ 0 (some ⟨0, 0⟩) ⟨"/api/public-key", none⟩).1 =
      some ⟨0, 0⟩ :=
  (claim2_exempt_allowlist ⟨120, 5242880⟩ 0 (some ⟨0, 0⟩) ⟨"/api/public-key", none⟩).2
    (by decide)

/-- C9: a non-exempt request whose declared content length parses and exceeds
`MAX_REQUEST_SIZE`, arriving when the (refilled) bucket holds at least one
token, is rejected 413 — and the token is consumed anyway, because the size
check runs only after the bucket admitted the request. -/
theorem claim9_oversize_consumes_token (cfg : DosConfig) (now : ℚ)
    (store : Option RateEntry) (req : DosRequest) (s : String) (v : ℤ)
    (hp : req.path ∉ publicPaths)
    (ht : ¬(dosRefilled cfg now store).tokens < 1)
    (hcl : req.contentLength = some s) (hs : s ≠ "")
    (hparse : pyParseInt s = some v) (hbig : cfg.maxRequestSize < v) :
    dos_protection cfg now store req =
      (some { dosRefilled cfg now store with
                tokens := (dosRefilled cfg now store).tokens - 1 },
        DosOutcome.rejected413) := by
  obtain ⟨path, cl⟩ := req
  obtain rfl : cl = some s := hcl
  rw [dos_protection, if_neg hp]
  dsimp only
  rw [if_neg ht, if_neg hs, hparse]
  dsimp only
  rw [if_pos hbig]

/-- C9 witness: a declared content length of 99 against a 10-byte maximum is
rejected 413 and still costs one token. -/
theorem claim9_oversize_consumes_token_witness :
    dos_protection ⟨120, 10⟩ 0 none ⟨"/api/verify", some "99"⟩ =
      (some { dosRefilled ⟨120, 10⟩ 0 none with
                tokens := (dosRefilled ⟨120, 10⟩ 0 none).tokens - 1 },
        DosOutcome.rejected413) :=
  claim9_oversize_consumes_token ⟨120, 10⟩ 0 none ⟨"/api/verify", some "99"⟩ "99" 99
    (by decide)
    (by norm_num [dosRefilled, refillEntry, Option.getD])
    rfl (by decide) (by decide) (by decide)

/-- C10: a non-exempt request whose content-length header is present and
non-empty but does not parse as an integer skips the size check silently: the
request is admitted (and a token is consumed), never rejected 413. -/
theorem claim10_bad_length_skipped (cfg : DosConfig) (now : ℚ)
    (store : Option RateEntry) (req : DosRequest) (s : String)
    (hp : req.path ∉ publicPaths)
    (ht : ¬(dosRefilled cfg now store).tokens < 1)
    (hcl : req.contentLength = some s) (hs : s ≠ "")
    (hparse : pyParseInt s = none) :
    dos_protection cfg now store req =
      (some { dosRefilled cfg now store with
                tokens := (dosRefilled cfg now store).tokens - 1 },
        DosOutcome.admitted) := by
  obtain ⟨path, cl⟩ := req
  obtain rfl : cl = some s := hcl
  rw [dos_protection, if_neg hp]
  dsimp only
  rw [if_neg ht, if_neg hs, hparse]

/-- C10 witness: a malformed content-length header `"abc"` is ignored and the
request proceeds to the handler. -/
theorem claim10_bad_length_skipped_witness :
    dos_protection ⟨120, 10⟩ 0 none ⟨"/api/verify", some "abc"⟩ =
      (some { dosRefilled ⟨120, 10⟩ 0 none with
                tokens := (dosRefilled ⟨120, 10⟩ 0 none).tokens - 1 },
        DosOutcome.admitted) :=
  claim10_bad_length_skipped ⟨120, 10⟩ 0 none ⟨"/api/verify", some "abc"⟩ "abc"
    (by decide)
    (by norm_num [dosRefilled, refillEntry, Option.getD])
    rfl (by decide) (by decide)

/-! ## Theorems about the session manager -/

theorem verify_session_eq_lookup (sessions : SessionMap) (h : Option String) :
    verify_session sessions h =
      match bearerToken h with
      | some tok => sessions tok
      | none => none := by
  cases h with
  | none => rfl
  | some s =>
    rw [verify_session, bearerToken]
    by_cases h0 : s = ""
    · rw [if_pos h0, if_pos h0]
    · rw [if_neg h0, if_neg h0]
      by_cases hb : pyStartsWith s "Bearer "
      · rw [if_pos hb, if_pos hb]
      · rw [if_neg hb, if_neg hb]

/-- C7: logout always replies success, removes exactly the session named by the
bearer token (when one is active), and leaves every other session untouched;
an absent or invalid token is a no-op, not an error. Hypothesis: the store is
consistent — each record is keyed by its own `session_token`, which holds for
every record inserted by `verify_login` (src/main.py line 221). -/
theorem claim7_logout (sessions : SessionMap) (h : Option String)
    (hcons : ∀ t s, sessions t = some s → s.session_token = t) :
    (logout sessions h).success = true ∧
      (logout sessions h).message = "Logged out successfully" ∧
      (∀ t, bearerToken h ≠ some t → (logout sessions h).sessions t = sessions t) ∧
      (∀ t, bearerToken h = some t → (logout sessions h).sessions t = none) := by
  rw [logout, verify_session_eq_lookup]
  cases hb : bearerToken h with
  | none =>
    refine ⟨rfl, rfl, fun t _ => rfl, fun t ht => ?_⟩
    exact absurd ht (by simp)
  | some tok =>
    dsimp only
    cases hlook : sessions tok with
    | none =>
      dsimp only
      refine ⟨rfl, rfl, fun t _ => rfl, fun t ht => ?_⟩
      obtain rfl : tok = t := Option.some.inj ht
      exact hlook
    | some sess =>
      dsimp only
      have hkey : sess.session_token = tok := hcons tok sess hlook
      refine ⟨rfl, rfl, fun t hne => ?_, fun t ht => ?_⟩
      · rw [if_neg]
        rw [hkey]
        intro hEq
        exact hne (hEq ▸ rfl)
      · obtain rfl : tok = t := Option.some.inj ht
        rw [if_pos hkey.symm]

/-- C7 witness: logging out with `Bearer tok1` removes session `tok1`, keeps
`tok2`, and replies success. -/
theorem claim7_logout_witness :
    (logout
        (fun t => if t = "tok1" then some ⟨"tok1", none, true, "ts"⟩
          else if t = "tok2" then some ⟨"tok2", none, false, "ts"⟩ else none)
        (some "Bearer tok1")).success = true ∧
      (logout
        (fun t => if t = "tok1" then some ⟨"tok1", none, true, "ts"⟩
          else if t = "tok2" then some ⟨"tok2", none, false, "ts"⟩ else none)
        (some "Bearer tok1")).sessions "tok1" = none ∧
      (logout
        (fun t => if t = "tok1" then some ⟨"tok1", none, true, "ts"⟩
          else if t = "tok2" then some ⟨"tok2", none, false, "ts"⟩ else none)
        (some "Bearer tok1")).sessions "tok2" =
        some ⟨"tok2", none, false, "ts"⟩ := by
  have H := claim7_logout
    (fun t => if t = "tok1" then some ⟨"tok1", none, true, "ts"⟩
      else if t = "tok2" then some ⟨"tok2", none, false, "ts"⟩ else none)
    (some "Bearer tok1")
    (by
      intro t s hts
      by_cases h1 : t = "tok1"
      · subst h1
        simp only [if_pos rfl] at hts
        cases hts
        rfl
      · by_cases h2 : t = "tok2"
        · subst h2
          simp only [reduceIte] at hts
          cases hts
          rfl
        · simp only [if_neg h1, if_neg h2] at hts
          exact absurd hts (by simp))
  refine ⟨H.1, ?_, ?_⟩
  · exact H.2.2.2 "tok1" (by decide)
  · rw [H.2.2.1 "tok2" (by decide)]
    simp

/-! ## Theorems about the key lifecycle manager -/

/-- C3 counterexample: in serverless mode, with both PEM env variables supplied
and parsing fine and nothing in memory, `ensure_keys_exist` still generates a
fresh pair — the adopted environment material is immediately overwritten
(src/security.py line 234: `if IS_SERVERLESS or not _in_memory_private_key`). -/
theorem claim3_serverless_counterexample :
    ensure_keys_exist
        ⟨some "ENVPRIV", some "ENVPUB", true, (fun s => some s), "FRESHPRIV", "FRESHPUB", true⟩
        ⟨none, none⟩ =
      (⟨some "FRESHPRIV", some "FRESHPUB"⟩, true) := by
  decide

/-- C3 amended: resolution order of `ensure_keys_exist`: (a) a key pair held in
process memory → no-op; (b) both PEM env variables supplied, parsed
successfully, and the deployment is NOT serverless → adopt them with no
generation; but in serverless mode a fresh pair is always generated whenever
memory starts empty, even when environment material was just adopted. -/
theorem claim3_resolution (cfg : KeyConfig) (st : KeyMem) :
    ((st.privKey.isSome && pyTruthy st.pubPem) = true → ensure_keys_exist cfg st = (st, false))
      ∧ (∀ priv pub k, ¬(st.privKey.isSome && pyTruthy st.pubPem) = true →
          cfg.envPriv = some priv → cfg.envPub = some pub →
          pyTruthy (some priv) = true → pyTruthy (some pub) = true →
          cfg.parsePem priv = some k → cfg.serverless = false →
          ensure_keys_exist cfg st = (⟨some k, some pub⟩, false))
      ∧ (cfg.serverless = true → ¬(st.privKey.isSome && pyTruthy st.pubPem) = true →
          (ensure_keys_exist cfg st).2 = true) := by
  refine ⟨fun hmem => ?_, fun priv pub k hmem hpriv hpub hpt hpt2 hparse hsl => ?_,
    fun hsl hmem => ?_⟩
  · rw [ensure_keys_exist, if_pos hmem]
  · simp [ensure_keys_exist, hmem, hpriv, hpub, hpt, hpt2, hparse, hsl]
  · simp [ensure_keys_exist, hmem, hsl]

/-- C3 witness: outside serverless mode, environment material is adopted and no
generation happens. -/
theorem claim3_resolution_witness :
    ensure_keys_exist
        ⟨some "ENVPRIV", some "ENVPUB", false, (fun s => some s), "FRESHPRIV", "FRESHPUB", true⟩
        ⟨none, none⟩ =
      (⟨some "ENVPRIV", some "ENVPUB"⟩, false) :=
  (claim3_resolution
      ⟨some "ENVPRIV", some "ENVPUB", false, (fun s => some s), "FRESHPRIV", "FRESHPUB", true⟩
      ⟨none, none⟩).2.1 "ENVPRIV" "ENVPUB" "ENVPRIV"
    (by decide) rfl rfl (by decide) (by decide) rfl rfl

/-! ## Theorems about the credential channel error surface -/

/-- C4 counterexample: two decryption failures at different steps, with the
exception texts the underlying libraries produce, surface different client
messages — the response does reveal which step failed. -/
theorem claim4_leak_counterexample :
    verify_login_error (.fail .base64Decode "Invalid base64-encoded string") ≠
      verify_login_error (.fail .utf8Decode "utf-8 codec cannot decode byte") := by
  decide

/-- C4 amended: a failed decryption is surfaced as HTTP 400 whose detail embeds
the internal exception text verbatim —
`"Authentication failed: Failed to decrypt password: <str(e)>"` — so the
message is not generic and can reveal which decryption step failed. -/
theorem claim4_error_embeds_exception (step : DecryptStep) (t : String) :
    verify_login_error (.fail step t) =
      some (400, "Authentication failed: " ++ ("Failed to decrypt password: " ++ t)) := by
  cases step <;> rfl

/-! ## Theorems about the credential channel round trip -/

theorem bytesToNat_append (l : List ℕ) (b : ℕ) :
    bytesToNat (l ++ [b]) = 256 * bytesToNat l + b := by
  simp [bytesToNat, List.foldl_append]

theorem bytesToNat_cons_zero (l : List ℕ) : bytesToNat (0 :: l) = bytesToNat l := by
  simp [bytesToNat]

theorem bytesToNat_lt (l : List ℕ) (h : ∀ b ∈ l, b < 256) :
    bytesToNat l < 256 ^ l.length := by
  induction l using List.reverseRecOn with
  | nil => simp [bytesToNat]
  | append_singleton l b ih =>
    rw [bytesToNat_append]
    have hb : b < 256 := h b (by simp)
    have hl : bytesToNat l < 256 ^ l.length := ih (fun x hx => h x (by simp [hx]))
    calc 256 * bytesToNat l + b < 256 * (bytesToNat l + 1) := by omega
      _ ≤ 256 * 256 ^ l.length := Nat.mul_le_mul_left 256 (by omega)
      _ = 256 ^ (l ++ [b]).length := by simp [pow_succ, Nat.mul_comm]

theorem natToBytes_length (k m : ℕ) : (natToBytes k m).length = k := by
  induction k generalizing m with
  | zero => rfl
  | succ k ih => simp [natToBytes, ih]

theorem natToBytes_lt (k m : ℕ) : ∀ b ∈ natToBytes k m, b < 256 := by
  induction k generalizing m with
  | zero => simp [natToBytes]
  | succ k ih =>
    intro b hb
    simp only [natToBytes, List.mem_append, List.mem_singleton] at hb
    rcases hb with hb | hb
    · exact ih _ b hb
    · omega

theorem natToBytes_bytesToNat (l : List ℕ) (h : ∀ b ∈ l, b < 256) :
    natToBytes l.length (bytesToNat l) = l := by
  induction l using List.reverseRecOn with
  | nil => rfl
  | append_singleton l b ih =>
    have hb : b < 256 := h b (by simp)
    rw [bytesToNat_append]
    have hlen : (l ++ [b]).length = l.length + 1 := by simp
    rw [hlen]
    simp only [natToBytes]
    have h1 : (256 * bytesToNat l + b) / 256 = bytesToNat l := by omega
    have h2 : (256 * bytesToNat l + b) % 256 = b := by omega
    rw [h1, h2, ih (fun x hx => h x (by simp [hx]))]

theorem bytesToNat_natToBytes (k m : ℕ) (h : m < 256 ^ k) :
    bytesToNat (natToBytes k m) = m := by
  induction k generalizing m with
  | zero =>
    simp only [pow_zero] at h
    simp [natToBytes, bytesToNat]
    omega
  | succ k ih =>
    simp only [natToBytes]
    rw [bytesToNat_append, ih (m / 256) (by
      have h2 : m < 256 ^ k * 256 := by
        rw [← pow_succ]
        exact h
      omega)]
    omega

theorem takeWhile_ne_zero (ps msg : List ℕ) (h : ∀ b ∈ ps, b ≠ 0) :
    (ps ++ 0 :: msg).takeWhile (fun b => b != 0) = ps := by
  induction ps with
  | nil => simp [List.takeWhile_cons]
  | cons p ps ih =>
    have hp : p ≠ 0 := h p (by simp)
    simp [List.takeWhile_cons, bne_iff_ne, hp, ih (fun x hx => h x (by simp [hx]))]

theorem dropWhile_ne_zero (ps msg : List ℕ) (h : ∀ b ∈ ps, b ≠ 0) :
    (ps ++ 0 :: msg).dropWhile (fun b => b != 0) = 0 :: msg := by
  induction ps with
  | nil => simp [List.dropWhile_cons]
  | cons p ps ih =>
    have hp : p ≠ 0 := h p (by simp)
    simp [List.dropWhile_cons, bne_iff_ne, hp, ih (fun x hx => h x (by simp [hx]))]

theorem pkcs1v15Unpad_pad (ps msg : List ℕ) (h : ∀ b ∈ ps, b ≠ 0)
    (hlen : 8 ≤ ps.length) : pkcs1v15Unpad (pkcs1v15Pad ps msg) = some msg := by
  rw [pkcs1v15Pad]
  simp only [pkcs1v15Unpad]
  rw [takeWhile_ne_zero ps msg h, dropWhile_ne_zero ps msg h]
  simp [hlen]

theorem b64Index_b64Char : ∀ i, i < 64 → b64Index (b64Char i) = some i := by decide

theorem b64Char_ne_pad : ∀ i, i < 64 → b64Char i ≠ '=' := by decide

theorem b64_roundTrip : ∀ l : List ℕ, (∀ b ∈ l, b < 256) →
    b64Decode (b64Encode l) = some l
  | [], _ => rfl
  | [a], h => by
    have ha : a < 256 := h a (by simp)
    have h1 := b64Index_b64Char (a / 4) (by omega)
    have h2 := b64Index_b64Char (a % 4 * 16) (by omega)
    simp only [b64Encode, b64Decode, h1, h2]
    simp only [reduceIte, and_self, if_true]
    congr 2
    omega
  | [a, b], h => by
    have ha : a < 256 := h a (by simp)
    have hb : b < 256 := h b (by simp)
    have h1 := b64Index_b64Char (a / 4) (by omega)
    have h2 := b64Index_b64Char (a % 4 * 16 + b / 16) (by omega)
    have h3 := b64Index_b64Char (b % 16 * 4) (by omega)
    have hne := b64Char_ne_pad (b % 16 * 4) (by omega)
    simp only [b64Encode, b64Decode, h1, h2]
    rw [if_neg hne]
    simp only [h3, reduceIte, if_true]
    congr 2
    · omega
    · congr 1
      omega
  | a :: b :: c :: rest, h => by
    have ih := b64_roundTrip rest (fun x hx => h x (by simp [hx]))
    have ha : a < 256 := h a (by simp)
    have hb : b < 256 := h b (by simp)
    have hc : c < 256 := h c (by simp)
    have h1 := b64Index_b64Char (a / 4) (by omega)
    have h2 := b64Index_b64Char (a % 4 * 16 + b / 16) (by omega)
    have h3 := b64Index_b64Char (b % 16 * 4 + c / 64) (by omega)
    have h4 := b64Index_b64Char (c % 64) (by omega)
    have hne3 := b64Char_ne_pad (b % 16 * 4 + c / 64) (by omega)
    have hne4 := b64Char_ne_pad (c % 64) (by omega)
    simp only [b64Encode, b64Decode, h1, h2]
    rw [if_neg hne3]
    simp only [h3]
    rw [if_neg hne4]
    simp only [h4, ih]
    congr 3
    · omega
    · omega
    · congr 1
      omega

theorem char_toNat_valid (c : Char) :
    c.toNat < 0xD800 ∨ (0xDFFF < c.toNat ∧ c.toNat < 0x110000) := c.valid

theorem utf8EncodeChar_lt (n : ℕ) (h : n < 0x110000) :
    ∀ b ∈ utf8EncodeChar n, b < 256 := by
  unfold utf8EncodeChar
  split_ifs with h1 h2 h3 <;> intro b hb <;> simp at hb <;> omega

theorem utf8Encode_lt (s : List Char) : ∀ b ∈ utf8Encode s, b < 256 := by
  induction s with
  | nil => simp [utf8Encode]
  | cons c cs ih =>
    intro b hb
    simp only [utf8Encode, List.mem_append] at hb
    rcases hb with hb | hb
    · have hv := char_toNat_valid c
      exact utf8EncodeChar_lt c.toNat (by omega) b hb
    · exact ih b hb

theorem utf8DecodeStep_encodeChar (c : Char) (tl : List ℕ) :
    utf8DecodeStep (utf8EncodeChar c.toNat ++ tl) = some (c.toNat, tl) := by
  have hv := char_toNat_valid c
  by_cases h1 : c.toNat < 0x80
  · rw [utf8EncodeChar, if_pos h1, List.cons_append, List.nil_append]
    simp only [utf8DecodeStep]
    rw [if_pos h1]
  · by_cases h2 : c.toNat < 0x800
    · rw [utf8EncodeChar, if_neg h1, if_pos h2]
      rw [List.cons_append, List.cons_append, List.nil_append]
      simp only [utf8DecodeStep, List.getD_cons_zero, List.getD_cons_succ, List.length_cons,
        List.drop_succ_cons, List.drop_zero, utf8IsCont]
      rw [if_neg (by omega), if_neg (by omega), if_pos (by omega)]
      rw [if_pos (by omega)]
      simp only [Option.some.injEq, Prod.mk.injEq]
      exact ⟨by omega, trivial⟩
    · by_cases h3 : c.toNat < 0x10000
      · rw [utf8EncodeChar, if_neg h1, if_neg h2, if_pos h3]
        rw [List.cons_append, List.cons_append, List.cons_append, List.nil_append]
        simp only [utf8DecodeStep, List.getD_cons_zero, List.getD_cons_succ, List.length_cons,
          List.drop_succ_cons, List.drop_zero, utf8IsCont]
        rw [if_neg (by omega), if_neg (by omega), if_neg (by omega), if_pos (by omega)]
        rw [if_pos (by omega)]
        rw [if_pos (by omega)]
        simp only [Option.some.injEq, Prod.mk.injEq]
        exact ⟨by omega, trivial⟩
      · rw [utf8EncodeChar, if_neg h1, if_neg h2, if_neg h3]
        rw [List.cons_append, List.cons_append, List.cons_append, List.cons_append,
          List.nil_append]
        simp only [utf8DecodeStep, List.getD_cons_zero, List.getD_cons_succ, List.length_cons,
          List.drop_succ_cons, List.drop_zero, utf8IsCont]
        rw [if_neg (by omega), if_neg (by omega), if_neg (by omega), if_neg (by omega),
          if_pos (by omega)]
        rw [if_pos (by omega)]
        rw [if_pos (by omega)]
        simp only [Option.some.injEq, Prod.mk.injEq]
        exact ⟨by omega, trivial⟩

theorem utf8EncodeChar_ne_nil (n : ℕ) : utf8EncodeChar n ≠ [] := by
  rw [utf8EncodeChar]
  split_ifs <;> simp

theorem utf8DecodeLoop_encode (s : List Char) :
    ∀ fuel, (utf8Encode s).length ≤ fuel → utf8DecodeLoop fuel (utf8Encode s) = some s := by
  induction s with
  | nil => intro fuel _; cases fuel <;> rfl
  | cons c cs ih =>
    intro fuel hf
    have hofn : Char.ofNat c.toNat = c := Char.ofNat_toNat c
    obtain ⟨b, bs, hEnc⟩ : ∃ b bs, utf8EncodeChar c.toNat = b :: bs := by
      cases hE : utf8EncodeChar c.toNat with
      | nil => exact absurd hE (utf8EncodeChar_ne_nil c.toNat)
      | cons b bs => exact ⟨b, bs, rfl⟩
    have hlist : utf8Encode (c :: cs) = b :: (bs ++ utf8Encode cs) := by
      rw [utf8Encode, hEnc, List.cons_append]
    have hfuel1 : 1 ≤ fuel := by
      rw [hlist] at hf
      simp only [List.length_cons] at hf
      omega
    obtain ⟨fuel', rfl⟩ : ∃ f, fuel = f + 1 := ⟨fuel - 1, by omega⟩
    rw [hlist]
    simp only [utf8DecodeLoop]
    have hstep : utf8DecodeStep (b :: (bs ++ utf8Encode cs)) = some (c.toNat, utf8Encode cs) := by
      rw [← List.cons_append, ← hEnc]
      exact utf8DecodeStep_encodeChar c (utf8Encode cs)
    rw [hstep]
    dsimp only
    have hle : (utf8Encode cs).length ≤ fuel' := by
      rw [hlist] at hf
      simp only [List.length_cons, List.length_append] at hf
      omega
    rw [ih fuel' hle]
    simp only [Option.map_some']
    rw [hofn]

theorem utf8_roundTrip (s : List Char) : utf8Decode (utf8Encode s) = some s :=
  utf8DecodeLoop_encode s (utf8Encode s).length le_rfl

theorem rsa_fermat_step (p k m : ℕ) (hp : p.Prime) (hk : 1 ≤ k)
    (hmod : k ≡ 1 [MOD p - 1]) : m ^ k ≡ m [MOD p] := by
  haveI : Fact p.Prime := ⟨hp⟩
  have h2 : ((m : ZMod p)) ^ k = (m : ZMod p) := by
    by_cases hz : (m : ZMod p) = 0
    · rw [hz, zero_pow (by omega : k ≠ 0)]
    · obtain ⟨t, ht⟩ : (p - 1) ∣ (k - 1) := (Nat.modEq_iff_dvd' hk).mp hmod.symm
      have hk1 : k = 1 + (p - 1) * t := by
        have h1p : 1 ≤ k := hk
        omega
      rw [hk1, pow_add, pow_one, pow_mul, ZMod.pow_card_sub_one_eq_one hz, one_pow, mul_one]
  have := (ZMod.natCast_eq_natCast_iff (m ^ k) m p).mp (by push_cast; exact h2)
  exact this

theorem rsa_correct (p q e d m : ℕ) (hp : p.Prime) (hq : q.Prime) (hpq : p ≠ q)
    (hed : e * d ≡ 1 [MOD (p - 1) * (q - 1)]) (hm : m < p * q) :
    (m ^ e % (p * q)) ^ d % (p * q) = m := by
  have hp2 : 2 ≤ p := hp.two_le
  have hq2 : 2 ≤ q := hq.two_le
  have hed1 : 1 ≤ e * d := by
    by_contra hcon
    have h0 : e * d = 0 := by omega
    rw [h0] at hed
    have hdvd : (p - 1) * (q - 1) ∣ 1 := (Nat.modEq_iff_dvd' (by omega)).mp hed
    have h1 : (p - 1) * (q - 1) = 1 := Nat.dvd_one.mp hdvd
    have h2 : p - 1 = 1 := Nat.eq_one_of_mul_eq_one_right h1
    have h3 : q - 1 = 1 := Nat.eq_one_of_mul_eq_one_left h1
    omega
  have hcop : Nat.Coprime p q := (Nat.coprime_primes hp hq).mpr hpq
  have h1 : m ^ (e * d) ≡ m [MOD p] :=
    rsa_fermat_step p (e * d) m hp hed1
      (Nat.ModEq.of_dvd (dvd_mul_right (p - 1) (q - 1)) hed)
  have h2 : m ^ (e * d) ≡ m [MOD q] :=
    rsa_fermat_step q (e * d) m hq hed1
      (Nat.ModEq.of_dvd (dvd_mul_left (q - 1) (p - 1)) hed)
  have hn : m ^ (e * d) ≡ m [MOD p * q] :=
    (Nat.modEq_and_modEq_iff_modEq_mul hcop).mp ⟨h1, h2⟩
  calc (m ^ e % (p * q)) ^ d % (p * q)
      = (m ^ e) ^ d % (p * q) := (Nat.pow_mod (m ^ e) d (p * q)).symm
    _ = m ^ (e * d) % (p * q) := by rw [← pow_mul]
    _ = m % (p * q) := hn
    _ = m := Nat.mod_eq_of_lt hm

theorem powModAux_eq (n b : ℕ) :
    ∀ fuel e, e ≤ fuel → powModAux n (b % n) fuel e = b ^ e % n := by
  intro fuel
  induction fuel with
  | zero =>
    intro e he
    obtain rfl : e = 0 := by omega
    simp [powModAux]
  | succ fuel ih =>
    intro e he
    cases e with
    | zero => simp [powModAux]
    | succ e =>
      have hmm : ∀ x y : ℕ, x % n * (y % n) % n = x * y % n :=
        fun x y => (Nat.mul_mod x y n).symm
      simp only [powModAux]
      rw [ih ((e + 1) / 2) (by omega)]
      by_cases hpar : (e + 1) % 2 = 0
      · rw [if_pos hpar, hmm (b ^ ((e + 1) / 2)) (b ^ ((e + 1) / 2)), ← pow_add,
          show (e + 1) / 2 + (e + 1) / 2 = e + 1 by omega]
      · rw [if_neg hpar, hmm (b ^ ((e + 1) / 2)) (b ^ ((e + 1) / 2)), Nat.mod_mul_mod,
          ← pow_add, Nat.mul_mod_mod, ← pow_succ,
          show (e + 1) / 2 + (e + 1) / 2 + 1 = e + 1 by omega]

theorem powMod_eq (n b e : ℕ) : powMod n b e = b ^ e % n :=
  powModAux_eq n b e e le_rfl

theorem prime_by_lucas (p a : ℕ) (hp : 1 < p)
    (h1 : powMod p a (p - 1) = 1)
    (hfac : ∀ r, r.Prime → r ∣ p - 1 → powMod p a ((p - 1) / r) ≠ 1) : p.Prime := by
  have hcast : ∀ k, ((a : ZMod p)) ^ k = 1 ↔ a ^ k % p = 1 := by
    intro k
    have hone : (1 : ZMod p) = ((1 : ℕ) : ZMod p) := by push_cast; rfl
    rw [show ((a : ZMod p)) ^ k = ((a ^ k : ℕ) : ZMod p) by push_cast; rfl, hone,
      ZMod.natCast_eq_natCast_iff]
    unfold Nat.ModEq
    rw [Nat.mod_eq_of_lt hp]
  apply lucas_primality p (a : ZMod p)
  · rw [hcast]
    rw [powMod_eq p a (p - 1)] at h1
    exact h1
  · intro r hr hdvd
    rw [Ne, hcast]
    have hh := hfac r hr hdvd
    rw [powMod_eq p a ((p - 1) / r)] at hh
    exact hh

/-- C6: for every password (here: any Unicode text; its UTF-8 bytes must fit
the PKCS#1 v1.5 message-size bound `mLen ≤ k - 11` for a `k`-byte modulus) and
every valid RSA key pair, decrypting the ciphertext produced by encrypting the
password with the corresponding public key returns the password. The key pair
is `n = p·q` with `p, q` distinct primes and `e·d ≡ 1 (mod (p-1)(q-1))`; the
padding string is any nonzero byte string of the mandated length. -/
theorem claim6_rsa_roundtrip (p q e d k : ℕ) (ps : List ℕ) (password : List Char)
    (hp : p.Prime) (hq : q.Prime) (hpq : p ≠ q)
    (hed : e * d ≡ 1 [MOD (p - 1) * (q - 1)])
    (hn_lo : 256 ^ (k - 1) ≤ p * q) (hn_hi : p * q < 256 ^ k)
    (hps : ∀ b ∈ ps, b ≠ 0 ∧ b < 256)
    (hpslen : ps.length = k - 3 - (utf8Encode password).length)
    (hmsg : (utf8Encode password).length + 11 ≤ k) :
    decrypt_password_bytes (p * q) d k (encrypt_with_public_key (p * q) e k ps password) =
      some password := by
  have hn_pos : 0 < p * q := Nat.mul_pos hp.pos hq.pos
  have hem_bytes : ∀ b ∈ pkcs1v15Pad ps (utf8Encode password), b < 256 := by
    intro b hb
    simp only [pkcs1v15Pad, List.mem_cons, List.mem_append] at hb
    rcases hb with rfl | rfl | hb | rfl | hb
    · omega
    · omega
    · exact (hps b hb).2
    · omega
    · exact utf8Encode_lt password b hb
  have hem_len : (pkcs1v15Pad ps (utf8Encode password)).length = k := by
    simp only [pkcs1v15Pad, List.length_cons, List.length_append]
    omega
  have hm_lt : bytesToNat (pkcs1v15Pad ps (utf8Encode password)) < 256 ^ (k - 1) := by
    rw [pkcs1v15Pad, bytesToNat_cons_zero]
    have hlen2 : (2 :: (ps ++ 0 :: utf8Encode password)).length = k - 1 := by
      simp only [pkcs1v15Pad, List.length_cons, List.length_append] at hem_len ⊢
      omega
    have := bytesToNat_lt (2 :: (ps ++ 0 :: utf8Encode password)) (by
      intro b hb
      exact hem_bytes b (by simp [pkcs1v15Pad, List.mem_cons] at hb ⊢; tauto))
    rw [hlen2] at this
    exact this
  have hm_lt_n : bytesToNat (pkcs1v15Pad ps (utf8Encode password)) < p * q :=
    lt_of_lt_of_le hm_lt hn_lo
  have hc_lt : rsaEncryptInt (p * q) e (bytesToNat (pkcs1v15Pad ps (utf8Encode password))) <
      p * q := Nat.mod_lt _ hn_pos
  rw [encrypt_with_public_key, decrypt_password_bytes]
  rw [b64_roundTrip _ (natToBytes_lt k _)]
  dsimp only
  rw [if_pos (natToBytes_length k _)]
  rw [bytesToNat_natToBytes k _ (lt_trans hc_lt hn_hi)]
  rw [if_pos hc_lt]
  have hdec : rsaDecryptInt (p * q) d
      (rsaEncryptInt (p * q) e (bytesToNat (pkcs1v15Pad ps (utf8Encode password)))) =
      bytesToNat (pkcs1v15Pad ps (utf8Encode password)) :=
    rsa_correct p q e d _ hp hq hpq hed hm_lt_n
  rw [hdec]
  rw [show natToBytes k (bytesToNat (pkcs1v15Pad ps (utf8Encode password))) =
      pkcs1v15Pad ps (utf8Encode password) from by
    rw [← hem_len]
    exact natToBytes_bytesToNat _ hem_bytes]
  rw [pkcs1v15Unpad_pad ps (utf8Encode password) (fun b hb => (hps b hb).1) (by omega)]
  exact utf8_roundTrip password

theorem prime_6597069766657 : Nat.Prime 6597069766657 := by
  apply prime_by_lucas 6597069766657 5 (by norm_num) (by decide)
  intro r hr hdvd
  have hfac2 : r = 2 ∨ r = 3 := by
    have h2 : (6597069766657 : ℕ) - 1 = 2 ^ 41 * 3 := by norm_num
    rw [h2] at hdvd
    rcases (Nat.Prime.dvd_mul hr).mp hdvd with h | h
    · exact Or.inl ((Nat.prime_dvd_prime_iff_eq hr Nat.prime_two).mp (hr.dvd_of_dvd_pow h))
    · exact Or.inr ((Nat.prime_dvd_prime_iff_eq hr Nat.prime_three).mp h)
  rcases hfac2 with rfl | rfl
  · decide
  · decide

theorem prime_263882790666241 : Nat.Prime 263882790666241 := by
  apply prime_by_lucas 263882790666241 7 (by norm_num) (by decide)
  intro r hr hdvd
  have hfac2 : r = 2 ∨ r = 3 ∨ r = 5 := by
    have h2 : (263882790666241 : ℕ) - 1 = 2 ^ 44 * (3 * 5) := by norm_num
    rw [h2] at hdvd
    rcases (Nat.Prime.dvd_mul hr).mp hdvd with h | h
    · exact Or.inl ((Nat.prime_dvd_prime_iff_eq hr Nat.prime_two).mp (hr.dvd_of_dvd_pow h))
    · rcases (Nat.Prime.dvd_mul hr).mp h with h3 | h5
      · exact Or.inr (Or.inl ((Nat.prime_dvd_prime_iff_eq hr Nat.prime_three).mp h3))
      · exact Or.inr (Or.inr ((Nat.prime_dvd_prime_iff_eq hr (by norm_num)).mp h5))
  rcases hfac2 with rfl | rfl | rfl
  · decide
  · decide
  · decide

/-- C6 witness: a concrete 96-bit RSA key pair (`e = 65537`, the key size the
code generates uses the same public exponent), an 8-byte padding string, and
the password `"a"` round-trip through the full base64 / RSA-PKCS#1 / UTF-8
pipeline. -/
theorem claim6_rsa_roundtrip_witness :
    decrypt_password_bytes (6597069766657 * 263882790666241) 153533597537520508215427073 12
        (encrypt_with_public_key (6597069766657 * 263882790666241) 65537 12
          [1, 1, 1, 1, 1, 1, 1, 1] ['a']) =
      some ['a'] :=
  claim6_rsa_roundtrip 6597069766657 263882790666241 65537 153533597537520508215427073 12
    [1, 1, 1, 1, 1, 1, 1, 1] ['a']
    prime_6597069766657 prime_263882790666241 (by norm_num)
    (show (65537 * 153533597537520508215427073) % ((6597069766657 - 1) * (263882790666241 - 1)) =
        1 % ((6597069766657 - 1) * (263882790666241 - 1)) by decide)
    (by decide) (by decide) (by decide) (by decide) (by decide)

end TunnelHub
